import Mathlib

/-!
# urlShortener: the save handler and the postgres storage

A shallow embedding of

* `internal/storage/postgres/postgres.go` (`Storage.SaveURL`, `Storage.GetURL`,
  `Storage.DeleteURL`), and
* `internal/http-server/handlers/url/save/save.go` (the handler returned by `New`).

Go errors are values of `GoError`; `fmt.Errorf("%s: %w", op, err)` is the constructor
`GoError.wrap` and `errors.Is` walks the chain of wrapped errors.  The database reached
through `database/sql` is a table of records together with the id sequence and a
schedule of driver failures; the handler is parametrised by its collaborators (JSON
decoding, the `url` validation rule, the `URLSaver`, the random string generator) and
threads the store, the generator and a trace of the calls it makes.
-/

namespace UrlShortener

/-! ## Errors -/

/-- Errors produced by the `database/sql` driver (`lib/pq`). -/
inductive DriverError where
  /-- The value `sql.ErrNoRows`. -/
  | sqlErrNoRows
  /-- A `*pq.Error`; the field is `Code.Name()`. -/
  | pqError (codeName : String)
  /-- Any other driver error (connectivity, bad statement, ...). -/
  | other (msg : String)
  deriving DecidableEq, Repr

/-- Go `error` values seen by the storage layer and by the handler. -/
inductive GoError where
  /-- Modelled from the spec: the sentinel `storage.ErrURLExists` (`AliasExists`), declared
  in `internal/storage`, which signals a uniqueness conflict on the alias. -/
  | ErrURLExists
  /-- Modelled from the spec: the sentinel `storage.ErrURLNotFound` (`NotFound`), declared
  in `internal/storage`, which signals that no record has the alias. -/
  | ErrURLNotFound
  /-- The value `io.EOF`. -/
  | ioEOF
  /-- An error coming from the database driver. -/
  | driver (e : DriverError)
  /-- Any other error (for instance a JSON syntax error). -/
  | other (msg : String)
  /-- The error built by `fmt.Errorf("%s: %w", op, err)`. -/
  | wrap (op : String) (err : GoError)
  deriving DecidableEq, Repr

/-- The function `errors.Is(err, target)`: `err` or an error it wraps equals `target`. -/
def errorsIs : GoError → GoError → Bool
  | .wrap op inner, target =>
      decide (GoError.wrap op inner = target) || errorsIs inner target
  | err, target => decide (err = target)

/-- The call `errors.Is(err, target)` on a possibly nil `err`. -/
def errIs (err : Option GoError) (target : GoError) : Bool :=
  match err with
  | none => false
  | some e => errorsIs e target

/-! ## The database behind `database/sql` -/

/-- A row of the table `url`. -/
structure Record where
  id : Int
  url : String
  alias_ : String
  deriving DecidableEq, Repr

/-- The persisted state: the rows of the table `url` and the last value handed out by
the sequence behind the auto-assigned `id`. -/
structure DB where
  rows : List Record
  seq : Int
  deriving DecidableEq, Repr

/-- A connection: the database and the schedule of driver failures.  Each driver call
consumes the head of the schedule; `some e` makes that call fail with `e` without
touching the database, `none` (or an exhausted schedule) lets the call reach it. -/
structure Conn where
  db : DB
  faults : List (Option DriverError)
  deriving DecidableEq, Repr

/-- The failure injected into the next driver call, and the connection afterwards. -/
def Conn.nextFault (c : Conn) : Option DriverError × Conn :=
  match c.faults with
  | [] => (none, c)
  | f :: rest => (f, { c with faults := rest })

/-- Whether some row carries the alias. -/
def DB.hasAlias (db : DB) (alias_ : String) : Bool :=
  db.rows.any (fun r => decide (r.alias_ = alias_))

/-- The aliases of the rows, in table order. -/
def DB.aliases (db : DB) : List String :=
  db.rows.map Record.alias_

/-- The call `s.db.Prepare("INSERT INTO url (url, alias) VALUES ($1, $2) RETURNING id")`:
it fails exactly when a failure is injected. -/
def dbPrepareInsert (c : Conn) : Option DriverError × Conn :=
  c.nextFault

/-- Modelled from the spec: the table `url` (its schema is not part of the sources) has
the columns `id` (surrogate key, auto-assigned), `url` (text, not null) and `alias`
(text, not null, unique).  This is `stmt.QueryRow(urlToSave, alias).Scan(&id)` for the
prepared insert: an injected failure leaves the table alone; an alias already present
violates the unique constraint, the statement has no effect and the driver reports a
`*pq.Error` named `unique_violation`; otherwise the row is appended with the next id. -/
def stmtQueryRowScan (c : Conn) (urlToSave alias_ : String) :
    (Int × Option DriverError) × Conn :=
  match c.nextFault with
  | (some e, c1) => ((0, some e), c1)
  | (none, c1) =>
      if c1.db.hasAlias alias_ then
        ((0, some (.pqError "unique_violation")), c1)
      else
        let id := c1.db.seq + 1
        ((id, none),
          { c1 with db := { rows := c1.db.rows ++ [⟨id, urlToSave, alias_⟩], seq := id } })

/-- The call `s.db.QueryRow("SELECT url FROM url WHERE alias = $1", alias).Scan(&url)`:
the url of the first matching row, `sql.ErrNoRows` when there is none. -/
def dbQueryRowScan (c : Conn) (alias_ : String) : (String × Option DriverError) × Conn :=
  match c.nextFault with
  | (some e, c1) => (("", some e), c1)
  | (none, c1) =>
      match c1.db.rows.find? (fun r => decide (r.alias_ = alias_)) with
      | some r => ((r.url, none), c1)
      | none => (("", some .sqlErrNoRows), c1)

/-- The call `s.db.Exec("DELETE FROM url WHERE alias = $1", alias)`: every row with the
alias is removed. -/
def dbExecDelete (c : Conn) (alias_ : String) : Option DriverError × Conn :=
  match c.nextFault with
  | (some e, c1) => (some e, c1)
  | (none, c1) =>
      (none,
        { c1 with db := { c1.db with
            rows := c1.db.rows.filter (fun r => !decide (r.alias_ = alias_)) } })

/-! ## `internal/storage/postgres` -/

namespace Storage

/-- The method `Storage.SaveURL`. -/
def SaveURL (s : Conn) (urlToSave alias_ : String) : (Int × Option GoError) × Conn :=
  let op := "storage.postgres.SaveURL"
  match dbPrepareInsert s with
  | (some err, s1) => ((0, some (.wrap op (.driver err))), s1)
  | (none, s1) =>
      match stmtQueryRowScan s1 urlToSave alias_ with
      | ((_, some err), s2) =>
          match err with
          | .pqError codeName =>
              if codeName = "unique_violation" then
                ((0, some (.wrap op .ErrURLExists)), s2)
              else
                ((0, some (.wrap op (.driver err))), s2)
          | _ => ((0, some (.wrap op (.driver err))), s2)
      | ((id, none), s2) => ((id, none), s2)

/-- The method `Storage.GetURL`. -/
def GetURL (s : Conn) (alias_ : String) : (String × Option GoError) × Conn :=
  let op := "storage.postgres.GetURL"
  match dbQueryRowScan s alias_ with
  | ((_, some err), s1) =>
      if err = .sqlErrNoRows then
        (("", some (.wrap op .ErrURLNotFound)), s1)
      else
        (("", some (.wrap op (.driver err))), s1)
  | ((url, none), s1) => ((url, none), s1)

/-- The method `Storage.DeleteURL`. -/
def DeleteURL (s : Conn) (alias_ : String) : Option GoError × Conn :=
  let op := "storage.postgres.DeleteURL"
  match dbExecDelete s alias_ with
  | (some err, s1) => (some (.wrap op (.driver err)), s1)
  | (none, s1) => (none, s1)

end Storage

/-! ## `internal/http-server/handlers/url/save` -/

/-- The struct `Request`. -/
structure Request where
  URL : String
  Alias : String
  deriving DecidableEq, Repr

/-- The struct `Response`: the embedded `resp.Response` (`Status`, `Error`) and `Alias`. -/
structure Response where
  Status : String
  Error : String
  Alias : String
  deriving DecidableEq, Repr

/-- The constant `aliasLength`. -/
def aliasLength : Nat := 6

/-- Modelled from the spec: `resp.OK()` of `internal/lib/api/response`, the success
envelope with status `OK`. -/
def respOK : Response := ⟨"OK", "", ""⟩

/-- Modelled from the spec: `resp.Error(msg)` of `internal/lib/api/response`, the failure
envelope with status `Error` and the message. -/
def respError (msg : String) : Response := ⟨"Error", msg, ""⟩

/-- One entry of `validator.ValidationErrors`: the field and the tag that failed. -/
structure FieldError where
  field : String
  tag : String
  deriving DecidableEq, Repr

/-- The call `validator.New().Struct(req)` for the tags of `Request`: `URL` carries
`validate:"required,url"` (non-empty, then the validator's `url` rule, here `isURL`);
`Alias` carries no rule.  The result is nil or the list of failed fields. -/
def validateStruct (isURL : String → Bool) (req : Request) : Option (List FieldError) :=
  if req.URL = "" then some [⟨"URL", "required"⟩]
  else if isURL req.URL then none
  else some [⟨"URL", "url"⟩]

/-- The collaborators of the handler. -/
structure Env (σ γ : Type) where
  /-- The call `render.DecodeJSON(r.Body, &req)`: the decoded request and the error. -/
  decodeJSON : String → Request × Option GoError
  /-- The `url` rule of the validator. -/
  isURL : String → Bool
  /-- Modelled from the spec: the message of `resp.ValidationError(validateErr)` of
  `internal/lib/api/response`, the validation-error detail per invalid field. -/
  validationDetail : List FieldError → String
  /-- The method `SaveURL` of the `URLSaver`, acting on a store of type `σ`. -/
  SaveURL : σ → String → String → (Int × Option GoError) × σ
  /-- The function `random.NewRandomString`, drawing from a source of type `γ`. -/
  NewRandomString : γ → Nat → String × γ

/-- What a run of the handler acts on: the store behind the `URLSaver`, the random
source, and the trace of the `SaveURL` calls (url, alias) and of the generated
candidates, both in the order they were made. -/
structure World (σ γ : Type) where
  store : σ
  rand : γ
  saveCalls : List (String × String)
  generated : List String

/-- The call `urlSaver.SaveURL(url, alias)`, recorded in the trace. -/
def callSaveURL {σ γ : Type} (env : Env σ γ) (w : World σ γ) (url alias_ : String) :
    (Int × Option GoError) × World σ γ :=
  let r := env.SaveURL w.store url alias_
  (r.1, { w with store := r.2, saveCalls := w.saveCalls ++ [(url, alias_)] })

/-- The call `random.NewRandomString(size)`, recorded in the trace. -/
def callNewRandomString {σ γ : Type} (env : Env σ γ) (w : World σ γ) (size : Nat) :
    String × World σ γ :=
  let r := env.NewRandomString w.rand size
  (r.1, { w with rand := r.2, generated := w.generated ++ [r.1] })

/-- The function `responseOK`. -/
def responseOK (alias_ : String) : Response :=
  { respOK with Alias := alias_ }

/-- The loop `for { ... }` of the generated-alias branch.  Each iteration consumes one
unit of `fuel`; `none` means the fuel ran out before the loop returned. -/
def retryLoop {σ γ : Type} (env : Env σ γ) (url : String) :
    Nat → World σ γ → Option (Response × World σ γ)
  | 0, _ => none
  | fuel + 1, w =>
      let (alias_, w1) := callNewRandomString env w aliasLength
      let ((_, err), w2) := callSaveURL env w1 url alias_
      if errIs err .ErrURLExists then
        retryLoop env url fuel w2
      else if err ≠ none then
        some (respError "failed to add url", w2)
      else
        some (responseOK alias_, w2)

/-- The handler returned by `New`, run on the request body `body`. -/
def New {σ γ : Type} (env : Env σ γ) (fuel : Nat) (body : String) (w : World σ γ) :
    Option (Response × World σ γ) :=
  let (req, err) := env.decodeJSON body
  if errIs err .ioEOF then
    some (respError "empty request", w)
  else if err ≠ none then
    some (respError "failed to decode request", w)
  else
    match validateStruct env.isURL req with
    | some validateErr =>
        some (respError (env.validationDetail validateErr), w)
    | none =>
        let alias_ := req.Alias
        if alias_ ≠ "" then
          let ((_, err), w1) := callSaveURL env w req.URL alias_
          if errIs err .ErrURLExists then
            some (respError "url already exist", w1)
          else if err ≠ none then
            some (respError "failed to add url", w1)
          else
            some (responseOK alias_, w1)
        else
          retryLoop env req.URL fuel w

/-- A fresh run: nothing called, nothing generated yet. -/
def World.init {σ γ : Type} (store : σ) (rand : γ) : World σ γ :=
  ⟨store, rand, [], []⟩

/-! ## The iterations of the retry loop -/

/-- One iteration of the loop, seen from outside: the candidate that is generated, the
error `SaveURL` returns for it, and the world afterwards. -/
def attempt {σ γ : Type} (env : Env σ γ) (url : String) (w : World σ γ) :
    (String × Option GoError) × World σ γ :=
  let g := callNewRandomString env w aliasLength
  let r := callSaveURL env g.2 url g.1
  ((g.1, r.1.2), r.2)

/-- The world after `i` iterations. -/
def worldAfter {σ γ : Type} (env : Env σ γ) (url : String) : Nat → World σ γ → World σ γ
  | 0, w => w
  | i + 1, w => worldAfter env url i (attempt env url w).2

/-- The candidate generated by iteration `i` (counted from 0). -/
def candidate {σ γ : Type} (env : Env σ γ) (url : String) (w : World σ γ) (i : Nat) : String :=
  (attempt env url (worldAfter env url i w)).1.1

/-- The error `SaveURL` returns in iteration `i` (counted from 0). -/
def verdict {σ γ : Type} (env : Env σ γ) (url : String) (w : World σ γ) (i : Nat) :
    Option GoError :=
  (attempt env url (worldAfter env url i w)).1.2

/-- The body decodes without error to `req` and `req` passes validation: a request that
reaches the allocation of the alias. -/
def Accepted {σ γ : Type} (env : Env σ γ) (body : String) (req : Request) : Prop :=
  env.decodeJSON body = (req, none) ∧ validateStruct env.isURL req = none

/-! ## `internal/lib/random` -/

/-- Modelled from the spec: the random source behind `random.NewRandomString` (the
package `internal/lib/random` is not part of the sources), a stream of draws and the
position reached in it. -/
structure RandSource where
  draws : Nat → Nat
  pos : Nat

/-- Modelled from the spec: one draw below `n` from the source. -/
def RandSource.Intn (r : RandSource) (n : Nat) : Nat × RandSource :=
  (r.draws r.pos % n, { r with pos := r.pos + 1 })

/-- Modelled from the spec: the fixed alphanumeric alphabet a-z, A-Z, 0-9 (62 symbols)
of `internal/lib/random`. -/
def chars : List Char :=
  "abcdefghijklmnopqrstuvwxyzABCDEFGHIJKLMNOPQRSTUVWXYZ0123456789".data

/-- Modelled from the spec: `size` symbols, each drawn independently from `chars`. -/
def randomRunes : Nat → RandSource → List Char × RandSource
  | 0, r => ([], r)
  | n + 1, r =>
      let d := r.Intn chars.length
      let rest := randomRunes n d.2
      (chars.getD d.1 'a' :: rest.1, rest.2)

/-- Modelled from the spec: `random.NewRandomString(size)` of `internal/lib/random`, a
candidate alias of the given length drawn from the alphabet `chars`. -/
def NewRandomString (r : RandSource) (size : Nat) : String × RandSource :=
  let b := randomRunes size r
  (String.mk b.1, b.2)

/-- A string of the configured length over the alphabet. -/
def WellFormedAlias (a : String) : Prop :=
  a.length = aliasLength ∧ ∀ c ∈ a.data, c ∈ chars

/-! ## Sequences of store operations -/

/-- A call made on the store. -/
inductive StoreOp where
  | save (url alias_ : String)
  | get (alias_ : String)
  | delete (alias_ : String)
  deriving DecidableEq, Repr

/-- The connection after one call. -/
def runOp (s : Conn) : StoreOp → Conn
  | .save url a => (Storage.SaveURL s url a).2
  | .get a => (Storage.GetURL s a).2
  | .delete a => (Storage.DeleteURL s a).2

/-- The connection after a sequence of calls. -/
def runOps (s : Conn) (ops : List StoreOp) : Conn :=
  ops.foldl runOp s

/-- No two rows carry the same alias. -/
def AliasesDistinct (db : DB) : Prop :=
  db.aliases.Nodup

instance (db : DB) : Decidable (AliasesDistinct db) := by
  unfold AliasesDistinct; infer_instance

/-! ## Test doubles and sample stores -/

/-- A decoder standing for `render.DecodeJSON`: the empty body gives `io.EOF`, the body
`not json` a syntax error, and every other body decodes to the fixed request. -/
def stubDecode (req : Request) : String → Request × Option GoError :=
  fun body =>
    if body = "" then (⟨"", ""⟩, some .ioEOF)
    else if body = "not json" then (⟨"", ""⟩, some (.other "invalid character"))
    else (req, none)

/-- A generator that replays a script of candidates (and the empty string once the
script is over). -/
def scriptedGen (script : List String) (_size : Nat) : String × List String :=
  match script with
  | [] => ("", [])
  | c :: rest => (c, rest)

/-- A random source replaying the given draws (and 0 afterwards). -/
def replay (ds : List Nat) : RandSource :=
  ⟨fun i => ds.getD i 0, 0⟩

/-- The handler over the postgres storage, with a scripted generator. -/
def pgEnv (req : Request) : Env Conn (List String) where
  decodeJSON := stubDecode req
  isURL := fun u => decide (u.data.take 4 = "http".data)
  validationDetail := fun errs => String.intercalate ", " (errs.map (fun e => e.field))
  SaveURL := Storage.SaveURL
  NewRandomString := scriptedGen

/-- The handler over the postgres storage with the generator of `internal/lib/random`. -/
def pgRandomEnv (req : Request) : Env Conn RandSource where
  decodeJSON := stubDecode req
  isURL := fun u => decide (u.data.take 4 = "http".data)
  validationDetail := fun errs => String.intercalate ", " (errs.map (fun e => e.field))
  SaveURL := Storage.SaveURL
  NewRandomString := NewRandomString

/-- The store after a first save of `https://example.com` under the alias `abc123`. -/
def storeWithAbc123 : Conn :=
  ⟨⟨[⟨1, "https://example.com", "abc123"⟩], 1⟩, []⟩

/-- The store holding the alias `go`. -/
def storeWithGo : Conn :=
  ⟨⟨[⟨1, "https://go.dev", "go"⟩], 1⟩, []⟩

/-- The store holding the alias `go` behind a connection whose next call fails. -/
def refusingGo : Conn :=
  ⟨⟨[⟨1, "https://go.dev", "go"⟩], 1⟩, [some (.other "connection refused")]⟩

/-- The store of `scenario1` behind a connection whose next call fails. -/
def brokenStore : Conn :=
  ⟨⟨[⟨1, "https://example.com", "abc123"⟩], 1⟩, [some (.other "connection refused")]⟩

/-- The store of `scenario1` behind a connection that fails on its third call, which is
the preparation of the second insert. -/
def breakingStore : Conn :=
  ⟨⟨[⟨1, "https://example.com", "abc123"⟩], 1⟩, [none, none, some (.other "connection refused")]⟩

/-- A connection on which the statement is prepared and the insert then fails with a
unique violation raised by a constraint other than the one on the alias (for instance
the key on `id`): the table only holds the alias `abc123`. -/
def foreignViolation : Conn :=
  ⟨⟨[⟨1, "https://example.com", "abc123"⟩], 1⟩, [none, some (.pqError "unique_violation")]⟩

/-- The error `Storage.SaveURL` returns when the connection is refused. -/
def refused : GoError :=
  .wrap "storage.postgres.SaveURL" (.driver (.other "connection refused"))

/-- The world of Scenario 1 before the second save: `abc123` is taken and the generator
is about to return `abc123` and then `xyz789`. -/
def scenario1 : World Conn (List String) :=
  World.init storeWithAbc123 ["abc123", "xyz789"]

/-- The draws that spell `abc123` and then `xyz789`. -/
def scenario1Draws : List Nat :=
  [0, 1, 2, 53, 54, 55, 23, 24, 25, 59, 60, 61]

/-! ## The retry loop, iteration by iteration -/

section Loop

variable {σ γ : Type} (env : Env σ γ) (url : String)

theorem retryLoop_succ (fuel : Nat) (w : World σ γ) :
    retryLoop env url (fuel + 1) w =
      if errIs (verdict env url w 0) .ErrURLExists then
        retryLoop env url fuel (attempt env url w).2
      else if verdict env url w 0 ≠ none then
        some (respError "failed to add url", (attempt env url w).2)
      else
        some (responseOK (candidate env url w 0), (attempt env url w).2) := by
  rfl

theorem worldAfter_succ (i : Nat) (w : World σ γ) :
    worldAfter env url (i + 1) w = (attempt env url (worldAfter env url i w)).2 := by
  induction i generalizing w with
  | zero => rfl
  | succ i ih =>
      show worldAfter env url (i + 1) (attempt env url w).2 = _
      rw [ih]; rfl

theorem candidate_shift (i : Nat) (w : World σ γ) :
    candidate env url (attempt env url w).2 i = candidate env url w (i + 1) := rfl

theorem verdict_shift (i : Nat) (w : World σ γ) :
    verdict env url (attempt env url w).2 i = verdict env url w (i + 1) := rfl

theorem attempt_saveCalls (w : World σ γ) :
    (attempt env url w).2.saveCalls = w.saveCalls ++ [(url, candidate env url w 0)] := rfl

theorem attempt_generated (w : World σ γ) :
    (attempt env url w).2.generated = w.generated ++ [candidate env url w 0] := rfl

/-- While the candidates are rejected as existing, the loop goes on. -/
theorem retryLoop_skip (k fuel : Nat) (w : World σ γ)
    (hrej : ∀ i, i < k → errIs (verdict env url w i) .ErrURLExists = true) :
    retryLoop env url (fuel + k) w = retryLoop env url fuel (worldAfter env url k w) := by
  induction k generalizing w with
  | zero => rfl
  | succ k ih =>
      have h0 := hrej 0 (Nat.succ_pos k)
      rw [← Nat.add_assoc, retryLoop_succ, if_pos h0]
      exact ih _ (fun i hi => by
        rw [verdict_shift]; exact hrej (i + 1) (Nat.succ_lt_succ hi))

/-- The `SaveURL` calls of the first `k` iterations. -/
theorem worldAfter_saveCalls (k : Nat) (w : World σ γ) :
    (worldAfter env url k w).saveCalls =
      w.saveCalls ++ (List.range k).map (fun i => (url, candidate env url w i)) := by
  induction k with
  | zero => simp [worldAfter]
  | succ k ih =>
      rw [worldAfter_succ, attempt_saveCalls, ih, List.range_succ, List.map_append,
        List.append_assoc]
      rfl

/-- The candidates generated by the first `k` iterations. -/
theorem worldAfter_generated (k : Nat) (w : World σ γ) :
    (worldAfter env url k w).generated =
      w.generated ++ (List.range k).map (fun i => candidate env url w i) := by
  induction k with
  | zero => simp [worldAfter]
  | succ k ih =>
      rw [worldAfter_succ, attempt_generated, ih, List.range_succ, List.map_append,
        List.append_assoc]
      rfl

/-- The loop ends with iteration `k` when the earlier candidates are rejected as
existing and the one of iteration `k` is not. -/
theorem retryLoop_stops (k fuel : Nat) (w : World σ γ)
    (hrej : ∀ i, i < k → errIs (verdict env url w i) .ErrURLExists = true)
    (hstop : errIs (verdict env url w k) .ErrURLExists = false) (hfuel : k < fuel) :
    retryLoop env url fuel w =
      if verdict env url w k ≠ none then
        some (respError "failed to add url", worldAfter env url (k + 1) w)
      else
        some (responseOK (candidate env url w k), worldAfter env url (k + 1) w) := by
  obtain ⟨f, rfl⟩ : ∃ f, fuel = (f + 1) + k := ⟨fuel - k - 1, by omega⟩
  rw [retryLoop_skip env url k (f + 1) w hrej, retryLoop_succ, worldAfter_succ]
  have h : errIs (verdict env url (worldAfter env url k w) 0) .ErrURLExists = false := hstop
  rw [h]
  rfl

/-- A property of the world kept by every iteration holds when the loop returns. -/
theorem retryLoop_preserves (P : World σ γ → Prop)
    (hstep : ∀ w, P w → P (attempt env url w).2) (fuel : Nat) (w : World σ γ) (hw : P w)
    (out : Response × World σ γ) (hout : retryLoop env url fuel w = some out) : P out.2 := by
  induction fuel generalizing w with
  | zero => simp [retryLoop] at hout
  | succ fuel ih =>
      rw [retryLoop_succ] at hout
      split at hout
      · exact ih _ (hstep w hw) hout
      · split at hout <;>
        · cases hout
          exact hstep w hw

/-- The loop answers with the failure message or with the candidate it generated last. -/
theorem retryLoop_response (fuel : Nat) (w : World σ γ)
    (out : Response × World σ γ) (hout : retryLoop env url fuel w = some out) :
    out.1 = respError "failed to add url" ∨
      (out.1 = responseOK out.1.Alias ∧ out.2.generated.getLast? = some out.1.Alias ∧
        out.2.saveCalls.getLast? = some (url, out.1.Alias)) := by
  induction fuel generalizing w with
  | zero => simp [retryLoop] at hout
  | succ fuel ih =>
      rw [retryLoop_succ] at hout
      split at hout
      · exact ih _ hout
      · split at hout
        · cases hout
          exact Or.inl rfl
        · cases hout
          refine Or.inr ⟨rfl, ?_, ?_⟩
          · rw [attempt_generated]; simp [responseOK]
          · rw [attempt_saveCalls]; simp [responseOK]

end Loop

/-! ## The handler -/

section Handler

variable {σ γ : Type} (env : Env σ γ)

/-- An accepted request with a requested alias makes one `SaveURL` call and answers
according to its error. -/
theorem New_requested (fuel : Nat) (body : String) (req : Request) (w : World σ γ)
    (hreq : Accepted env body req) (hne : req.Alias ≠ "") :
    New env fuel body w =
      if errIs (callSaveURL env w req.URL req.Alias).1.2 .ErrURLExists then
        some (respError "url already exist", (callSaveURL env w req.URL req.Alias).2)
      else if (callSaveURL env w req.URL req.Alias).1.2 ≠ none then
        some (respError "failed to add url", (callSaveURL env w req.URL req.Alias).2)
      else
        some (responseOK req.Alias, (callSaveURL env w req.URL req.Alias).2) := by
  obtain ⟨hdec, hval⟩ := hreq
  simp only [New, hdec, hval, errIs, if_pos hne]
  simp

/-- An accepted request without alias enters the retry loop. -/
theorem New_generated (fuel : Nat) (body : String) (req : Request) (w : World σ γ)
    (hreq : Accepted env body req) (hempty : req.Alias = "") :
    New env fuel body w = retryLoop env req.URL fuel w := by
  obtain ⟨hdec, hval⟩ := hreq
  simp [New, hdec, hval, errIs, hempty]

/-- A request is answered before allocation, with the world as it was, or is accepted. -/
theorem New_rejected_or_accepted (fuel : Nat) (body : String) (w : World σ γ) :
    (∃ resp, New env fuel body w = some (resp, w)) ∨
      Accepted env body (env.decodeJSON body).1 := by
  rcases hdec : env.decodeJSON body with ⟨req, err⟩
  cases err with
  | some e =>
      left
      by_cases h : errorsIs e .ioEOF = true <;> simp [New, hdec, errIs, h]
  | none =>
      cases hval : validateStruct env.isURL req with
      | some errs => left; simp [New, hdec, errIs, hval]
      | none => right; exact ⟨hdec, hval⟩

/-- A property of the world kept by every `SaveURL` call and by every generation holds
when the handler returns. -/
theorem New_preserves (P : World σ γ → Prop)
    (hsave : ∀ w u a, P w → P (callSaveURL env w u a).2)
    (hgen : ∀ w n, P w → P (callNewRandomString env w n).2)
    (fuel : Nat) (body : String) (w : World σ γ) (hw : P w)
    (out : Response × World σ γ) (hout : New env fuel body w = some out) : P out.2 := by
  rcases New_rejected_or_accepted env fuel body w with ⟨resp, h⟩ | hacc
  · rw [h] at hout; cases hout; exact hw
  · by_cases hne : (env.decodeJSON body).1.Alias ≠ ""
    · rw [New_requested env fuel body _ w hacc hne] at hout
      split at hout
      · cases hout; exact hsave _ _ _ hw
      · split at hout <;>
        · cases hout; exact hsave _ _ _ hw
    · rw [New_generated env fuel body _ w hacc (not_not.1 hne)] at hout
      exact retryLoop_preserves env _ P
        (fun w' hw' => hsave _ _ _ (hgen _ _ hw')) fuel w hw out hout

end Handler

/-! ## The storage, call by call -/

section StorageLemmas

theorem hasAlias_iff_mem (db : DB) (a : String) : db.hasAlias a = true ↔ a ∈ db.aliases := by
  simp only [DB.hasAlias, DB.aliases, List.any_eq_true, List.mem_map, decide_eq_true_eq]

/-- On a connection without pending failures, saving an alias that is present fails
with `ErrURLExists` and changes nothing. -/
theorem SaveURL_present (db : DB) (url a : String) (h : db.hasAlias a = true) :
    Storage.SaveURL ⟨db, []⟩ url a =
      ((0, some (.wrap "storage.postgres.SaveURL" .ErrURLExists)), ⟨db, []⟩) := by
  simp [Storage.SaveURL, dbPrepareInsert, stmtQueryRowScan, Conn.nextFault, h]

/-- On a connection without pending failures, saving an absent alias appends the record
under the next id. -/
theorem SaveURL_absent (db : DB) (url a : String) (h : db.hasAlias a = false) :
    Storage.SaveURL ⟨db, []⟩ url a =
      ((db.seq + 1, none), ⟨⟨db.rows ++ [⟨db.seq + 1, url, a⟩], db.seq + 1⟩, []⟩) := by
  simp [Storage.SaveURL, dbPrepareInsert, stmtQueryRowScan, Conn.nextFault, h]

/-- The function `Storage.SaveURL` either leaves the database as it was or succeeds in
appending the record of an absent alias under the next id. -/
theorem SaveURL_db (s : Conn) (url a : String) :
    ((Storage.SaveURL s url a).1.2 ≠ none ∧ (Storage.SaveURL s url a).2.db = s.db) ∨
      ((Storage.SaveURL s url a).1 = (s.db.seq + 1, none) ∧ s.db.hasAlias a = false ∧
        (Storage.SaveURL s url a).2.db =
          ⟨s.db.rows ++ [⟨s.db.seq + 1, url, a⟩], s.db.seq + 1⟩) := by
  rcases s with ⟨db, _ | ⟨_ | e1, _ | ⟨_ | e2, rest⟩⟩⟩ <;>
    by_cases h : db.hasAlias a = true <;>
    simp [Storage.SaveURL, dbPrepareInsert, stmtQueryRowScan, Conn.nextFault, h]
  all_goals
    cases e2 <;> simp
    split <;> simp

/-- A failed `SaveURL` leaves the database as it was. -/
theorem SaveURL_err_db (s : Conn) (url a : String)
    (h : (Storage.SaveURL s url a).1.2 ≠ none) : (Storage.SaveURL s url a).2.db = s.db := by
  rcases SaveURL_db s url a with ⟨_, h1⟩ | ⟨h1, _, _⟩
  · exact h1
  · rw [h1] at h; exact absurd rfl h

theorem SaveURL_distinct (s : Conn) (url a : String) (h : AliasesDistinct s.db) :
    AliasesDistinct (Storage.SaveURL s url a).2.db := by
  rcases SaveURL_db s url a with ⟨_, h1⟩ | ⟨_, h2, h3⟩
  · rw [h1]; exact h
  · rw [h3]
    have hn : a ∉ s.db.aliases := by
      rw [← hasAlias_iff_mem, h2]; simp
    unfold AliasesDistinct DB.aliases at *
    simp only [List.map_append, List.map_cons, List.map_nil]
    exact List.Nodup.append h (List.nodup_singleton a) (by simpa using hn)

/-- The four ways `Storage.SaveURL` can go: the preparation fails; the insert fails with
a unique violation; the insert fails otherwise; the insert succeeds. -/
theorem SaveURL_cases (s : Conn) (url a : String) :
    (∃ e, (dbPrepareInsert s).1 = some e ∧
      (Storage.SaveURL s url a).1 =
        (0, some (.wrap "storage.postgres.SaveURL" (.driver e)))) ∨
    ((dbPrepareInsert s).1 = none ∧
      (stmtQueryRowScan (dbPrepareInsert s).2 url a).1.2 =
        some (.pqError "unique_violation") ∧
      (Storage.SaveURL s url a).1 =
        (0, some (.wrap "storage.postgres.SaveURL" .ErrURLExists))) ∨
    ((dbPrepareInsert s).1 = none ∧
      ∃ e, (stmtQueryRowScan (dbPrepareInsert s).2 url a).1.2 = some e ∧
        e ≠ .pqError "unique_violation" ∧
        (Storage.SaveURL s url a).1 =
          (0, some (.wrap "storage.postgres.SaveURL" (.driver e)))) ∨
    ((dbPrepareInsert s).1 = none ∧
      (stmtQueryRowScan (dbPrepareInsert s).2 url a).1.2 = none ∧
      (Storage.SaveURL s url a).1.2 = none) := by
  unfold Storage.SaveURL
  rcases hp : dbPrepareInsert s with ⟨_ | e, s1⟩
  · rcases hq : stmtQueryRowScan s1 url a with ⟨⟨id, _ | e⟩, s2⟩
    · simp [hq]
    · cases e with
      | pqError codeName =>
          by_cases hc : codeName = "unique_violation"
          · subst hc; simp [hq]
          · simp [hq, hc]
      | sqlErrNoRows => simp [hq]
      | other msg => simp [hq]
  · simp

theorem GetURL_db (s : Conn) (a : String) : (Storage.GetURL s a).2.db = s.db := by
  rcases s with ⟨db, _ | ⟨_ | e1, rest⟩⟩ <;>
    cases hfind : db.rows.find? (fun r => decide (r.alias_ = a)) <;>
    simp only [Storage.GetURL, dbQueryRowScan, Conn.nextFault, hfind] <;>
    split <;> rfl

theorem DeleteURL_db (s : Conn) (a : String) :
    (Storage.DeleteURL s a).2.db = s.db ∨
      (Storage.DeleteURL s a).2.db =
        ⟨s.db.rows.filter (fun r => !decide (r.alias_ = a)), s.db.seq⟩ := by
  rcases s with ⟨db, _ | ⟨_ | e1, rest⟩⟩ <;>
    simp [Storage.DeleteURL, dbExecDelete, Conn.nextFault]

theorem filter_distinct (db : DB) (p : Record → Bool) (h : AliasesDistinct db) :
    AliasesDistinct ⟨db.rows.filter p, db.seq⟩ := by
  unfold AliasesDistinct DB.aliases at *
  exact List.Nodup.sublist (List.Sublist.map _ (List.filter_sublist _)) h

theorem DeleteURL_distinct (s : Conn) (a : String) (h : AliasesDistinct s.db) :
    AliasesDistinct (Storage.DeleteURL s a).2.db := by
  rcases DeleteURL_db s a with h1 | h1 <;> rw [h1]
  · exact h
  · exact filter_distinct _ _ h

theorem runOp_distinct (s : Conn) (op : StoreOp) (h : AliasesDistinct s.db) :
    AliasesDistinct (runOp s op).db := by
  cases op with
  | save url a => exact SaveURL_distinct s url a h
  | get a => show AliasesDistinct (Storage.GetURL s a).2.db; rw [GetURL_db]; exact h
  | delete a => exact DeleteURL_distinct s a h

theorem runOps_distinct (ops : List StoreOp) (s : Conn) (h : AliasesDistinct s.db) :
    AliasesDistinct (runOps s ops).db := by
  induction ops generalizing s with
  | nil => exact h
  | cons op ops ih => exact ih (runOp s op) (runOp_distinct s op h)

/-- Among rows with distinct aliases, the row found for an alias is the row carrying it. -/
theorem find_of_distinct (rows : List Record) (r : Record) (hr : r ∈ rows)
    (h : (rows.map Record.alias_).Nodup) :
    rows.find? (fun x => decide (x.alias_ = r.alias_)) = some r := by
  induction rows with
  | nil => cases hr
  | cons x xs ih =>
      rw [List.map_cons, List.nodup_cons] at h
      rcases List.mem_cons.1 hr with rfl | hmem
      · simp
      · have hx : x.alias_ ≠ r.alias_ := fun e =>
          h.1 (e ▸ List.mem_map_of_mem Record.alias_ hmem)
        rw [List.find?_cons_of_neg _ (by simpa using hx)]
        exact ih hmem h.2

/-- Among rows with distinct aliases, at most one carries a given alias. -/
theorem filter_alias_length_le_one (rows : List Record) (a : String)
    (h : (rows.map Record.alias_).Nodup) :
    (rows.filter (fun x => decide (x.alias_ = a))).length ≤ 1 := by
  induction rows with
  | nil => simp
  | cons x xs ih =>
      rw [List.map_cons, List.nodup_cons] at h
      by_cases hx : x.alias_ = a
      · have hnone : xs.filter (fun y => decide (y.alias_ = a)) = [] := by
          rw [List.filter_eq_nil_iff]
          intro y hy
          have : y.alias_ ≠ a := fun e =>
            h.1 (hx ▸ e ▸ List.mem_map_of_mem Record.alias_ hy)
          simpa using this
        simp [List.filter_cons, hx, hnone]
      · simpa [List.filter_cons, hx] using ih h.2

end StorageLemmas

/-! ## The claims on the save handler -/

/-- C1: for an accepted request with an empty alias, if the first `k` candidates are each
rejected by `SaveURL` with an error that is `ErrURLExists` and the next candidate is
accepted, then the handler returns (with any fuel above `k`), has made exactly `k + 1`
`SaveURL` calls, one per candidate in generation order and each with the request URL,
and responds OK with the last candidate as the alias. -/
theorem save_generated_alias_retries_until_accepted {σ γ : Type} (env : Env σ γ)
    (body : String) (req : Request) (store : σ) (rand : γ) (k fuel : Nat)
    (hreq : Accepted env body req) (hempty : req.Alias = "")
    (hrej : ∀ i, i < k →
      errIs (verdict env req.URL (World.init store rand) i) .ErrURLExists = true)
    (hacc : verdict env req.URL (World.init store rand) k = none)
    (hfuel : k < fuel) :
    ∃ resp w', New env fuel body (World.init store rand) = some (resp, w') ∧
      resp.Status = "OK" ∧ resp.Error = "" ∧
      resp.Alias = candidate env req.URL (World.init store rand) k ∧
      w'.saveCalls = (List.range (k + 1)).map
        (fun i => (req.URL, candidate env req.URL (World.init store rand) i)) ∧
      w'.generated = (List.range (k + 1)).map
        (fun i => candidate env req.URL (World.init store rand) i) := by
  refine ⟨responseOK (candidate env req.URL (World.init store rand) k),
    worldAfter env req.URL (k + 1) (World.init store rand), ?_, rfl, rfl, rfl, ?_, ?_⟩
  · rw [New_generated env fuel body req _ hreq hempty,
      retryLoop_stops env req.URL k fuel _ hrej (by rw [hacc]; rfl) hfuel, hacc]
    simp
  · rw [worldAfter_saveCalls]; rfl
  · rw [worldAfter_generated]; rfl

/-- Scenario 1: `abc123` is taken, `xyz789` is free; the second save retries once and
lands on `xyz789`. -/
theorem save_generated_alias_retries_until_accepted_witness :
    ∃ resp w', New (pgEnv ⟨"https://example.com", ""⟩) 2 "request" scenario1 = some (resp, w') ∧
      resp.Status = "OK" ∧ resp.Error = "" ∧ resp.Alias = "xyz789" ∧
      w'.saveCalls = [("https://example.com", "abc123"), ("https://example.com", "xyz789")] ∧
      w'.generated = ["abc123", "xyz789"] :=
  save_generated_alias_retries_until_accepted (pgEnv ⟨"https://example.com", ""⟩) "request"
    ⟨"https://example.com", ""⟩ storeWithAbc123 ["abc123", "xyz789"] 1 2
    ⟨rfl, by decide⟩ rfl (by decide) (by decide) (by decide)

/-- C3: for an accepted request with a non-empty requested alias for which `SaveURL`
succeeds, the handler responds OK with exactly the requested alias, having made exactly
one `SaveURL` call, with the request URL and that alias, and generated nothing. -/
theorem save_requested_alias_accepted {σ γ : Type} (env : Env σ γ)
    (body : String) (req : Request) (store : σ) (rand : γ) (fuel : Nat)
    (hreq : Accepted env body req) (hne : req.Alias ≠ "")
    (hok : (env.SaveURL store req.URL req.Alias).1.2 = none) :
    ∃ resp w', New env fuel body (World.init store rand) = some (resp, w') ∧
      resp.Status = "OK" ∧ resp.Error = "" ∧ resp.Alias = req.Alias ∧
      w'.saveCalls = [(req.URL, req.Alias)] ∧ w'.generated = [] ∧
      w'.store = (env.SaveURL store req.URL req.Alias).2 ∧ w'.rand = rand := by
  refine ⟨responseOK req.Alias, (callSaveURL env (World.init store rand) req.URL req.Alias).2,
    ?_, rfl, rfl, rfl, rfl, rfl, rfl, rfl⟩
  have h : (callSaveURL env (World.init store rand) req.URL req.Alias).1.2 = none := hok
  rw [New_requested env fuel body req _ hreq hne, h]
  simp [errIs]

/-- The alias `go` is free in a store that only holds `abc123`. -/
theorem save_requested_alias_accepted_witness :
    ∃ resp w', New (pgEnv ⟨"https://example.com", "go"⟩) 0 "request" scenario1 = some (resp, w') ∧
      resp.Status = "OK" ∧ resp.Error = "" ∧ resp.Alias = "go" ∧
      w'.saveCalls = [("https://example.com", "go")] ∧ w'.generated = [] ∧
      w'.store = ⟨⟨[⟨1, "https://example.com", "abc123"⟩, ⟨2, "https://example.com", "go"⟩], 2⟩, []⟩ ∧
      w'.rand = ["abc123", "xyz789"] :=
  save_requested_alias_accepted (pgEnv ⟨"https://example.com", "go"⟩) "request"
    ⟨"https://example.com", "go"⟩ storeWithAbc123 ["abc123", "xyz789"] 0
    ⟨rfl, by decide⟩ (by decide) (by decide)

/-- C5: in both paths the first `SaveURL` call whose error is not `ErrURLExists` ends the
handler.  With a requested alias that is the only call and nothing is generated; with a
generated alias, where the `k` earlier candidates were rejected as existing, the trace
holds exactly the `k + 1` calls and candidates made so far.  In both cases the handler
returns (with any fuel above `k`) and the response is `Error` with the message
`failed to add url`. -/
theorem save_aborts_on_other_error {σ γ : Type} (env : Env σ γ)
    (body : String) (req : Request) (store : σ) (rand : γ) (e : GoError)
    (hreq : Accepted env body req) (he : errorsIs e .ErrURLExists = false) :
    (req.Alias ≠ "" → (env.SaveURL store req.URL req.Alias).1.2 = some e →
      ∀ fuel, ∃ resp w', New env fuel body (World.init store rand) = some (resp, w') ∧
        resp = ⟨"Error", "failed to add url", ""⟩ ∧
        w'.saveCalls = [(req.URL, req.Alias)] ∧ w'.generated = [] ∧
        w'.store = (env.SaveURL store req.URL req.Alias).2 ∧ w'.rand = rand) ∧
    (req.Alias = "" → ∀ k fuel,
      (∀ i, i < k → errIs (verdict env req.URL (World.init store rand) i) .ErrURLExists = true) →
      verdict env req.URL (World.init store rand) k = some e → k < fuel →
      ∃ resp w', New env fuel body (World.init store rand) = some (resp, w') ∧
        resp = ⟨"Error", "failed to add url", ""⟩ ∧
        w'.saveCalls = (List.range (k + 1)).map
          (fun i => (req.URL, candidate env req.URL (World.init store rand) i)) ∧
        w'.generated = (List.range (k + 1)).map
          (fun i => candidate env req.URL (World.init store rand) i)) := by
  constructor
  · intro hne herr fuel
    refine ⟨respError "failed to add url",
      (callSaveURL env (World.init store rand) req.URL req.Alias).2, ?_, rfl, rfl, rfl, rfl, rfl⟩
    have h : (callSaveURL env (World.init store rand) req.URL req.Alias).1.2 = some e := herr
    rw [New_requested env fuel body req _ hreq hne, h]
    simp [errIs, he]
  · intro hempty k fuel hrej herr hfuel
    refine ⟨respError "failed to add url",
      worldAfter env req.URL (k + 1) (World.init store rand), ?_, rfl, ?_, ?_⟩
    · rw [New_generated env fuel body req _ hreq hempty,
        retryLoop_stops env req.URL k fuel _ hrej (by rw [herr]; exact he) hfuel, herr]
      simp
    · rw [worldAfter_saveCalls]; rfl
    · rw [worldAfter_generated]; rfl

/-- A refused connection: on the requested alias `go` at once, on a generated alias after
`abc123` was rejected as existing. -/
theorem save_aborts_on_other_error_witness :
    (∃ resp w', New (pgEnv ⟨"https://example.com", "go"⟩) 0 "request"
        (World.init brokenStore ["abc123", "xyz789"]) = some (resp, w') ∧
      resp = ⟨"Error", "failed to add url", ""⟩ ∧
      w'.saveCalls = [("https://example.com", "go")] ∧ w'.generated = [] ∧
      w'.store = storeWithAbc123 ∧ w'.rand = ["abc123", "xyz789"]) ∧
    (∃ resp w', New (pgEnv ⟨"https://example.com", ""⟩) 2 "request"
        (World.init breakingStore ["abc123", "xyz789"]) = some (resp, w') ∧
      resp = ⟨"Error", "failed to add url", ""⟩ ∧
      w'.saveCalls = [("https://example.com", "abc123"), ("https://example.com", "xyz789")] ∧
      w'.generated = ["abc123", "xyz789"]) :=
  ⟨(save_aborts_on_other_error (pgEnv ⟨"https://example.com", "go"⟩) "request"
      ⟨"https://example.com", "go"⟩ brokenStore ["abc123", "xyz789"] refused
      ⟨rfl, by decide⟩ (by decide)).1 (by decide) (by decide) 0,
   (save_aborts_on_other_error (pgEnv ⟨"https://example.com", ""⟩) "request"
      ⟨"https://example.com", ""⟩ breakingStore ["abc123", "xyz789"] refused
      ⟨rfl, by decide⟩ (by decide)).2 rfl 1 2 (by decide) (by decide) (by decide)⟩

/-- C10: a request rejected before allocation is answered with status `Error` and leaves
the world as it was: no `SaveURL` call, no generated alias, the store untouched.  The
message is `empty request` when decoding reports `io.EOF`, `failed to decode request`
for any other decoding error, and the validation detail when the decoded request fails
validation, as the request with url "" and alias "" does. -/
theorem save_rejects_before_allocation {σ γ : Type} (env : Env σ γ)
    (fuel : Nat) (body : String) (w : World σ γ) :
    (errIs (env.decodeJSON body).2 .ioEOF = true →
      New env fuel body w = some (⟨"Error", "empty request", ""⟩, w)) ∧
    (errIs (env.decodeJSON body).2 .ioEOF = false → (env.decodeJSON body).2 ≠ none →
      New env fuel body w = some (⟨"Error", "failed to decode request", ""⟩, w)) ∧
    (∀ errs, (env.decodeJSON body).2 = none →
      validateStruct env.isURL (env.decodeJSON body).1 = some errs →
      New env fuel body w = some (⟨"Error", env.validationDetail errs, ""⟩, w)) ∧
    validateStruct env.isURL ⟨"", ""⟩ = some [⟨"URL", "required"⟩] := by
  refine ⟨?_, ?_, ?_, rfl⟩
  · intro h
    simp [New, h, respError]
  · intro h hne
    simp [New, h, hne, respError]
  · intro errs hdec hval
    simp [New, hdec, hval, errIs, respError]

/-- The empty body, a body that is not JSON, and the request with url "" and alias "". -/
theorem save_rejects_before_allocation_witness :
    New (pgEnv ⟨"", ""⟩) 3 "" scenario1 = some (⟨"Error", "empty request", ""⟩, scenario1) ∧
    New (pgEnv ⟨"", ""⟩) 3 "not json" scenario1 =
      some (⟨"Error", "failed to decode request", ""⟩, scenario1) ∧
    New (pgEnv ⟨"", ""⟩) 3 "request" scenario1 = some (⟨"Error", "URL", ""⟩, scenario1) :=
  ⟨(save_rejects_before_allocation (pgEnv ⟨"", ""⟩) 3 "" scenario1).1 (by decide),
   (save_rejects_before_allocation (pgEnv ⟨"", ""⟩) 3 "not json" scenario1).2.1
      (by decide) (by decide),
   (save_rejects_before_allocation (pgEnv ⟨"", ""⟩) 3 "request" scenario1).2.2.1
      [⟨"URL", "required"⟩] (by decide) (by decide)⟩

/-! ## The claims on the storage -/

/-- C2: for an accepted request with a non-empty alias for which `SaveURL` reports
`ErrURLExists`, the handler makes exactly one `SaveURL` call, with the request URL and
that alias, generates no candidate, and responds `Error` with `url already exist`; the
store is left as that one call left it, and a call of the postgres `SaveURL` that
reports `ErrURLExists` leaves the table as it was. -/
theorem save_requested_alias_taken {σ γ : Type} (env : Env σ γ)
    (body : String) (req : Request) (store : σ) (rand : γ) (fuel : Nat)
    (hreq : Accepted env body req) (hne : req.Alias ≠ "")
    (hexists : errIs (env.SaveURL store req.URL req.Alias).1.2 .ErrURLExists = true) :
    (∃ resp w', New env fuel body (World.init store rand) = some (resp, w') ∧
      resp = ⟨"Error", "url already exist", ""⟩ ∧
      w'.saveCalls = [(req.URL, req.Alias)] ∧ w'.generated = [] ∧
      w'.store = (env.SaveURL store req.URL req.Alias).2 ∧ w'.rand = rand) ∧
    (∀ s : Conn, errIs (Storage.SaveURL s req.URL req.Alias).1.2 .ErrURLExists = true →
      (Storage.SaveURL s req.URL req.Alias).2.db = s.db) := by
  constructor
  · refine ⟨respError "url already exist",
      (callSaveURL env (World.init store rand) req.URL req.Alias).2, ?_, rfl, rfl, rfl, rfl, rfl⟩
    have h : errIs (callSaveURL env (World.init store rand) req.URL req.Alias).1.2
        .ErrURLExists = true := hexists
    rw [New_requested env fuel body req _ hreq hne, if_pos h]
  · intro s hs
    apply SaveURL_err_db
    intro hnone
    rw [hnone] at hs
    cases hs

/-- Scenario 3: the alias `go` already exists; the store is unchanged. -/
theorem save_requested_alias_taken_witness :
    ∃ resp w', New (pgEnv ⟨"https://example.com", "go"⟩) 0 "request"
        (World.init storeWithGo ["abc123"]) = some (resp, w') ∧
      resp = ⟨"Error", "url already exist", ""⟩ ∧
      w'.saveCalls = [("https://example.com", "go")] ∧ w'.generated = [] ∧
      w'.store = storeWithGo ∧ w'.rand = ["abc123"] :=
  (save_requested_alias_taken (pgEnv ⟨"https://example.com", "go"⟩) "request"
    ⟨"https://example.com", "go"⟩ storeWithGo ["abc123"] 0
    ⟨rfl, by decide⟩ (by decide) (by decide)).1

/-- C6: `SaveURL` is to report `ErrURLExists` if and only if the alias being inserted is
already in the table, and any other constraint violation with an error that does not
match it.  The code misses this on `foreignViolation`: the insert of the alias `go`,
which is not in the table, fails with a unique violation raised by another constraint,
and `SaveURL` returns id 0 with an error that matches `ErrURLExists`, because the branch
commented as the check for a conflict on the alias tests the error class only. -/
theorem SaveURL_exists_without_alias :
    (Storage.SaveURL foreignViolation "https://example.com" "go").1 =
      (0, some (.wrap "storage.postgres.SaveURL" .ErrURLExists)) ∧
    errIs (Storage.SaveURL foreignViolation "https://example.com" "go").1.2 .ErrURLExists = true ∧
    foreignViolation.db.hasAlias "go" = false ∧
    ¬ (errIs (Storage.SaveURL foreignViolation "https://example.com" "go").1.2 .ErrURLExists = true ↔
        foreignViolation.db.hasAlias "go" = true) := by
  decide

/-- What `Storage.SaveURL` computes, case by case: the error matches `ErrURLExists`
exactly when the statement is prepared and the insert fails with a `*pq.Error` named
`unique_violation`; when no driver failure is pending this is exactly the case of an
alias already in the table.  Every failure returns id 0 and leaves the table as it was;
a failed preparation and an insert failing with any other error are returned wrapped
and do not match `ErrURLExists`; a successful insert returns the new id with a nil
error and stores the record. -/
theorem SaveURL_error_classes (s : Conn) (url a : String) :
    (errIs (Storage.SaveURL s url a).1.2 .ErrURLExists = true ↔
      (dbPrepareInsert s).1 = none ∧
        (stmtQueryRowScan (dbPrepareInsert s).2 url a).1.2 =
          some (.pqError "unique_violation")) ∧
    errIs (Storage.SaveURL ⟨s.db, []⟩ url a).1.2 .ErrURLExists = s.db.hasAlias a ∧
    ((Storage.SaveURL s url a).1.2 ≠ none →
      (Storage.SaveURL s url a).1.1 = 0 ∧ (Storage.SaveURL s url a).2.db = s.db) ∧
    (∀ e, (dbPrepareInsert s).1 = some e →
      (Storage.SaveURL s url a).1 =
        (0, some (.wrap "storage.postgres.SaveURL" (.driver e))) ∧
      errIs (Storage.SaveURL s url a).1.2 .ErrURLExists = false) ∧
    (∀ e, (dbPrepareInsert s).1 = none →
      (stmtQueryRowScan (dbPrepareInsert s).2 url a).1.2 = some e →
      e ≠ .pqError "unique_violation" →
      (Storage.SaveURL s url a).1 =
        (0, some (.wrap "storage.postgres.SaveURL" (.driver e))) ∧
      errIs (Storage.SaveURL s url a).1.2 .ErrURLExists = false) ∧
    ((Storage.SaveURL s url a).1.2 = none →
      (Storage.SaveURL s url a).1.1 = s.db.seq + 1 ∧
      (Storage.SaveURL s url a).2.db =
        ⟨s.db.rows ++ [⟨s.db.seq + 1, url, a⟩], s.db.seq + 1⟩) := by
  have hcases := SaveURL_cases s url a
  refine ⟨?_, ?_, ?_, ?_, ?_, ?_⟩
  · rcases hcases with ⟨e, hp, h⟩ | ⟨hp, hq, h⟩ | ⟨hp, e, hq, hne, h⟩ | ⟨hp, hq, h⟩
    · simp [h, hp, errIs, errorsIs]
    · simp [h, hp, hq, errIs, errorsIs]
    · simp [h, hp, hq, hne, errIs, errorsIs]
    · simp [h, hp, hq, errIs]
  · by_cases h : s.db.hasAlias a = true
    · rw [SaveURL_present _ _ _ h, h]; rfl
    · rw [Bool.not_eq_true] at h
      rw [SaveURL_absent _ _ _ h, h]; rfl
  · intro herr
    refine ⟨?_, SaveURL_err_db s url a herr⟩
    rcases hcases with ⟨e, hp, h⟩ | ⟨hp, hq, h⟩ | ⟨hp, e, hq, hne, h⟩ | ⟨hp, hq, h⟩
    · rw [h]
    · rw [h]
    · rw [h]
    · exact absurd h herr
  · intro e he
    rcases hcases with ⟨e', hp, h⟩ | ⟨hp, hq, h⟩ | ⟨hp, e', hq, hne, h⟩ | ⟨hp, hq, h⟩
    · rw [he] at hp
      cases hp
      exact ⟨h, by rw [h]; rfl⟩
    all_goals
      rw [he] at hp; cases hp
  · intro e hp' he hne'
    rcases hcases with ⟨e', hp, h⟩ | ⟨hp, hq, h⟩ | ⟨hp, e', hq, hne, h⟩ | ⟨hp, hq, h⟩
    · rw [hp'] at hp; cases hp
    · rw [he] at hq; cases hq; exact absurd rfl hne'
    · rw [he] at hq; cases hq
      exact ⟨h, by rw [h]; rfl⟩
    · rw [he] at hq; cases hq
  · intro hok
    rcases SaveURL_db s url a with ⟨h1, _⟩ | ⟨h1, _, h3⟩
    · exact absurd hok h1
    · exact ⟨by rw [h1], h3⟩

/-- An alias in the table, a refused connection, a not-null violation and a free
alias. -/
theorem SaveURL_error_classes_witness :
    errIs (Storage.SaveURL storeWithGo "https://example.com" "go").1.2 .ErrURLExists = true ∧
    (Storage.SaveURL brokenStore "https://example.com" "go").1 = (0, some refused) ∧
    (Storage.SaveURL ⟨⟨[], 0⟩, [none, some (.pqError "not_null_violation")]⟩
        "https://example.com" "go").1 =
      (0, some (.wrap "storage.postgres.SaveURL"
        (.driver (.pqError "not_null_violation")))) ∧
    (Storage.SaveURL storeWithAbc123 "https://example.com" "go").1.1 = 2 :=
  ⟨((SaveURL_error_classes storeWithGo "https://example.com" "go").2.1).trans (by decide),
   ((SaveURL_error_classes brokenStore "https://example.com" "go").2.2.2.1
      (.other "connection refused") rfl).1,
   ((SaveURL_error_classes ⟨⟨[], 0⟩, [none, some (.pqError "not_null_violation")]⟩
      "https://example.com" "go").2.2.2.2.1
      (.pqError "not_null_violation") rfl rfl (by decide)).1,
   ((SaveURL_error_classes storeWithAbc123 "https://example.com" "go").2.2.2.2.2
      (by decide)).1⟩

/-- The delete on a connection without pending failures: no error, the rows carrying
the alias removed and all others kept; afterwards `GetURL` of the alias fails with
`ErrURLNotFound` and a second `DeleteURL` changes nothing. -/
theorem DeleteURL_healthy (db : DB) (a : String) :
    Storage.DeleteURL ⟨db, []⟩ a =
      (none, ⟨⟨db.rows.filter (fun r => !decide (r.alias_ = a)), db.seq⟩, []⟩) ∧
    (db.hasAlias a = false → (Storage.DeleteURL ⟨db, []⟩ a).2 = ⟨db, []⟩) ∧
    (∀ r, r ∈ (Storage.DeleteURL ⟨db, []⟩ a).2.db.rows ↔ r ∈ db.rows ∧ r.alias_ ≠ a) ∧
    (AliasesDistinct db → db.hasAlias a = true →
      (Storage.DeleteURL ⟨db, []⟩ a).2.db.rows.length + 1 = db.rows.length) ∧
    (Storage.GetURL (Storage.DeleteURL ⟨db, []⟩ a).2 a).1 =
      ("", some (.wrap "storage.postgres.GetURL" .ErrURLNotFound)) ∧
    errIs (Storage.GetURL (Storage.DeleteURL ⟨db, []⟩ a).2 a).1.2 .ErrURLNotFound = true ∧
    Storage.DeleteURL (Storage.DeleteURL ⟨db, []⟩ a).2 a =
      (none, (Storage.DeleteURL ⟨db, []⟩ a).2) := by
  have hdel : Storage.DeleteURL ⟨db, []⟩ a =
      (none, ⟨⟨db.rows.filter (fun r => !decide (r.alias_ = a)), db.seq⟩, []⟩) := rfl
  have hget : (Storage.GetURL (Storage.DeleteURL ⟨db, []⟩ a).2 a).1 =
      ("", some (.wrap "storage.postgres.GetURL" .ErrURLNotFound)) := by
    have hnone : (db.rows.filter (fun r => !decide (r.alias_ = a))).find?
        (fun r => decide (r.alias_ = a)) = none := by
      rw [List.find?_eq_none]
      intro x hx
      have := (List.mem_filter.1 hx).2
      simpa using this
    simp [hdel, Storage.GetURL, dbQueryRowScan, Conn.nextFault, hnone]
  refine ⟨hdel, ?_, ?_, ?_, hget, ?_, ?_⟩
  · intro h
    have hall : ∀ r ∈ db.rows, (!decide (r.alias_ = a)) = true := by
      intro r hr
      have hne : r.alias_ ≠ a := fun e => by
        have : db.hasAlias a = true := by
          rw [DB.hasAlias, List.any_eq_true]; exact ⟨r, hr, by simpa using e⟩
        rw [h] at this; cases this
      simpa using hne
    rw [hdel]
    simp only [List.filter_eq_self.2 hall]
  · intro r
    simp [hdel, List.mem_filter]
  · intro hd hh
    have hle := filter_alias_length_le_one db.rows a hd
    have hge : 1 ≤ (db.rows.filter (fun x => decide (x.alias_ = a))).length := by
      rw [DB.hasAlias, List.any_eq_true] at hh
      obtain ⟨r, hr, hp⟩ := hh
      exact List.length_pos_of_mem (List.mem_filter.2 ⟨hr, hp⟩)
    have hsplit := List.length_eq_length_filter_add (l := db.rows)
      (fun x => decide (x.alias_ = a))
    simp only [hdel]
    omega
  · rw [hget]; rfl
  · simp [hdel, Storage.DeleteURL, dbExecDelete, Conn.nextFault]

/-- A `DeleteURL` whose driver call does not fail. -/
theorem DeleteURL_ok (s : Conn) (a : String) (h : s.nextFault.1 = none) :
    Storage.DeleteURL s a =
      (none, ⟨⟨s.db.rows.filter (fun r => !decide (r.alias_ = a)), s.db.seq⟩,
        s.faults.tail⟩) := by
  rcases s with ⟨db, _ | ⟨_ | e, rest⟩⟩
  · rfl
  · rfl
  · cases h

/-- A `DeleteURL` whose driver call fails. -/
theorem DeleteURL_failed (s : Conn) (a : String) (e : DriverError)
    (h : s.nextFault.1 = some e) :
    Storage.DeleteURL s a =
      (some (.wrap "storage.postgres.DeleteURL" (.driver e)), ⟨s.db, s.faults.tail⟩) := by
  rcases s with ⟨db, _ | ⟨_ | e1, rest⟩⟩
  · cases h
  · cases h
  · cases h; rfl

/-- A `GetURL` whose driver call does not fail, for an alias no row carries. -/
theorem GetURL_missing (c : Conn) (a : String) (h : c.nextFault.1 = none)
    (hfind : c.db.rows.find? (fun r => decide (r.alias_ = a)) = none) :
    (Storage.GetURL c a).1 = ("", some (.wrap "storage.postgres.GetURL" .ErrURLNotFound)) := by
  rcases c with ⟨db, _ | ⟨_ | e, rest⟩⟩
  · simp only [Storage.GetURL, dbQueryRowScan, Conn.nextFault] at hfind ⊢
    rw [hfind]; rfl
  · simp only [Storage.GetURL, dbQueryRowScan, Conn.nextFault] at hfind ⊢
    rw [hfind]; rfl
  · cases h

/-- C7, as stated, fails: on `refusingGo` the connection is refused, `DeleteURL` of the
alias `go`, which has a record, returns the wrapped driver error, the record stays and a
subsequent `GetURL` still returns its url. -/
theorem DeleteURL_fails_on_refused_connection :
    (Storage.DeleteURL refusingGo "go").1 =
      some (.wrap "storage.postgres.DeleteURL" (.driver (.other "connection refused"))) ∧
    (Storage.DeleteURL refusingGo "go").2.db = refusingGo.db ∧
    (Storage.GetURL (Storage.DeleteURL refusingGo "go").2 "go").1 = ("https://go.dev", none) ∧
    ¬ ((Storage.DeleteURL refusingGo "go").1 = none ∧
        errIs (Storage.GetURL (Storage.DeleteURL refusingGo "go").2 "go").1.2
          .ErrURLNotFound = true) := by
  decide

/-- C7, amended: on every connection, a `DeleteURL` whose driver call does not fail
returns no error and removes the rows carrying the alias, keeping all others: when no
row carries the alias the store is unchanged, and when the aliases are distinct and one
row carries it, exactly that row is removed; a subsequent `GetURL` of the alias whose
driver call does not fail fails with `ErrURLNotFound`, and a second `DeleteURL` whose
driver call does not fail succeeds again and leaves the store as the first one left
it.  A `DeleteURL` whose driver call fails returns the driver error wrapped with the
name of the operation and leaves the store unchanged. -/
theorem DeleteURL_removes_or_reports_failure (s : Conn) (a : String) :
    (s.nextFault.1 = none →
      (Storage.DeleteURL s a).1 = none ∧
      (Storage.DeleteURL s a).2.db =
        ⟨s.db.rows.filter (fun r => !decide (r.alias_ = a)), s.db.seq⟩ ∧
      (s.db.hasAlias a = false → (Storage.DeleteURL s a).2.db = s.db) ∧
      (∀ r, r ∈ (Storage.DeleteURL s a).2.db.rows ↔ r ∈ s.db.rows ∧ r.alias_ ≠ a) ∧
      (AliasesDistinct s.db → s.db.hasAlias a = true →
        (Storage.DeleteURL s a).2.db.rows.length + 1 = s.db.rows.length) ∧
      ((Storage.DeleteURL s a).2.nextFault.1 = none →
        (Storage.GetURL (Storage.DeleteURL s a).2 a).1 =
          ("", some (.wrap "storage.postgres.GetURL" .ErrURLNotFound)) ∧
        errIs (Storage.GetURL (Storage.DeleteURL s a).2 a).1.2 .ErrURLNotFound = true ∧
        (Storage.DeleteURL (Storage.DeleteURL s a).2 a).1 = none ∧
        (Storage.DeleteURL (Storage.DeleteURL s a).2 a).2.db =
          (Storage.DeleteURL s a).2.db)) ∧
    (∀ e, s.nextFault.1 = some e →
      (Storage.DeleteURL s a).1 =
        some (.wrap "storage.postgres.DeleteURL" (.driver e)) ∧
      errIs (Storage.DeleteURL s a).1 .ErrURLNotFound = false ∧
      (Storage.DeleteURL s a).2.db = s.db) := by
  constructor
  · intro hok
    have hh := DeleteURL_healthy s.db a
    rw [DeleteURL_ok s a hok]
    refine ⟨rfl, rfl, ?_, hh.2.2.1, hh.2.2.2.1, ?_⟩
    · intro habs
      have h2 : (Storage.DeleteURL ⟨s.db, []⟩ a).2.db = (Conn.mk s.db []).db :=
        congrArg Conn.db (hh.2.1 habs)
      exact h2
    · intro hok2
      have hnone : (s.db.rows.filter (fun r => !decide (r.alias_ = a))).find?
          (fun r => decide (r.alias_ = a)) = none := by
        rw [List.find?_eq_none]
        intro x hx
        have := (List.mem_filter.1 hx).2
        simpa using this
      have hget := GetURL_missing _ a hok2 hnone
      refine ⟨hget, by rw [hget]; rfl, ?_, ?_⟩
      · rw [DeleteURL_ok _ a hok2]
      · rw [DeleteURL_ok _ a hok2]
        simp
  · intro e he
    rw [DeleteURL_failed s a e he]
    exact ⟨rfl, rfl, rfl⟩

/-- Scenario 5: deleting the alias `go` empties the store that holds it, deleting the
alias `abc123`, which it does not hold, changes nothing; on a refused connection the
delete reports the failure and changes nothing. -/
theorem DeleteURL_removes_or_reports_failure_witness :
    (Storage.DeleteURL storeWithGo "go").1 = none ∧
    (Storage.DeleteURL storeWithGo "go").2.db = ⟨[], 1⟩ ∧
    (Storage.DeleteURL storeWithGo "abc123").2.db = storeWithGo.db ∧
    (Storage.DeleteURL storeWithGo "go").2.db.rows.length + 1 = storeWithGo.db.rows.length ∧
    errIs (Storage.GetURL (Storage.DeleteURL storeWithGo "go").2 "go").1.2
      .ErrURLNotFound = true ∧
    (Storage.DeleteURL (Storage.DeleteURL storeWithGo "go").2 "go").1 = none ∧
    (Storage.DeleteURL refusingGo "go").2.db = refusingGo.db :=
  ⟨((DeleteURL_removes_or_reports_failure storeWithGo "go").1 rfl).1,
   ((DeleteURL_removes_or_reports_failure storeWithGo "go").1 rfl).2.1,
   ((DeleteURL_removes_or_reports_failure storeWithGo "abc123").1 rfl).2.2.1 (by decide),
   ((DeleteURL_removes_or_reports_failure storeWithGo "go").1 rfl).2.2.2.2.1
      (by decide) (by decide),
   (((DeleteURL_removes_or_reports_failure storeWithGo "go").1 rfl).2.2.2.2.2 rfl).2.1,
   (((DeleteURL_removes_or_reports_failure storeWithGo "go").1 rfl).2.2.2.2.2 rfl).2.2.1,
   ((DeleteURL_removes_or_reports_failure refusingGo "go").2
      (.other "connection refused") rfl).2.2⟩

/-- C8: on a connection without pending failures, `GetURL` returns the url of the record
carrying the alias, with a nil error, when there is one (in particular the url of the
successful `SaveURL` that created it), and the empty string with an error matching
`ErrURLNotFound` when there is none; a driver failure other than `sql.ErrNoRows` is
returned wrapped and does not match `ErrURLNotFound`.  `GetURL` never changes the
database, so a repeated call returns the same result. -/
theorem GetURL_reads_without_writing (db : DB) (a : String) :
    (∀ r, r ∈ db.rows → r.alias_ = a → AliasesDistinct db →
      Storage.GetURL ⟨db, []⟩ a = ((r.url, none), ⟨db, []⟩)) ∧
    (db.hasAlias a = true →
      ∃ r, r ∈ db.rows ∧ r.alias_ = a ∧
        Storage.GetURL ⟨db, []⟩ a = ((r.url, none), ⟨db, []⟩)) ∧
    (∀ url, (Storage.SaveURL ⟨db, []⟩ url a).1.2 = none →
      (Storage.GetURL (Storage.SaveURL ⟨db, []⟩ url a).2 a).1 = (url, none)) ∧
    (db.hasAlias a = false →
      Storage.GetURL ⟨db, []⟩ a =
        (("", some (.wrap "storage.postgres.GetURL" .ErrURLNotFound)), ⟨db, []⟩) ∧
      errIs (Storage.GetURL ⟨db, []⟩ a).1.2 .ErrURLNotFound = true) ∧
    (∀ e rest, e ≠ .sqlErrNoRows →
      Storage.GetURL ⟨db, some e :: rest⟩ a =
        (("", some (.wrap "storage.postgres.GetURL" (.driver e))), ⟨db, rest⟩) ∧
      errIs (Storage.GetURL ⟨db, some e :: rest⟩ a).1.2 .ErrURLNotFound = false) ∧
    (∀ s : Conn, (Storage.GetURL s a).2.db = s.db) ∧
    Storage.GetURL (Storage.GetURL ⟨db, []⟩ a).2 a = Storage.GetURL ⟨db, []⟩ a := by
  have hfound : ∀ r, db.rows.find? (fun x => decide (x.alias_ = a)) = some r →
      Storage.GetURL ⟨db, []⟩ a = ((r.url, none), ⟨db, []⟩) := by
    intro r hr
    simp [Storage.GetURL, dbQueryRowScan, Conn.nextFault, hr]
  have hmissing : db.rows.find? (fun x => decide (x.alias_ = a)) = none →
      Storage.GetURL ⟨db, []⟩ a =
        (("", some (.wrap "storage.postgres.GetURL" .ErrURLNotFound)), ⟨db, []⟩) := by
    intro hr
    simp [Storage.GetURL, dbQueryRowScan, Conn.nextFault, hr]
  refine ⟨?_, ?_, ?_, ?_, ?_, fun s => GetURL_db s a, ?_⟩
  · intro r hr ha hd
    subst ha
    exact hfound r (find_of_distinct db.rows r hr hd)
  · intro hh
    cases hfind : db.rows.find? (fun x => decide (x.alias_ = a)) with
    | none =>
        rw [List.find?_eq_none] at hfind
        rw [DB.hasAlias, List.any_eq_true] at hh
        obtain ⟨r, hr, hp⟩ := hh
        exact absurd hp (hfind r hr)
    | some r =>
        exact ⟨r, List.mem_of_find?_eq_some hfind, by simpa using List.find?_some hfind,
          hfound r hfind⟩
  · intro url hok
    have habs : db.hasAlias a = false := by
      by_cases h : db.hasAlias a = true
      · rw [SaveURL_present _ _ _ h] at hok; cases hok
      · simpa using h
    have hnone : db.rows.find? (fun x => decide (x.alias_ = a)) = none := by
      rw [List.find?_eq_none]
      intro x hx hp
      have : db.hasAlias a = true := by
        rw [DB.hasAlias, List.any_eq_true]; exact ⟨x, hx, hp⟩
      rw [habs] at this; cases this
    rw [SaveURL_absent _ _ _ habs]
    simp [Storage.GetURL, dbQueryRowScan, Conn.nextFault, hnone]
  · intro habs
    have hnone : db.rows.find? (fun x => decide (x.alias_ = a)) = none := by
      rw [List.find?_eq_none]
      intro x hx hp
      have : db.hasAlias a = true := by
        rw [DB.hasAlias, List.any_eq_true]; exact ⟨x, hx, hp⟩
      rw [habs] at this; cases this
    refine ⟨hmissing hnone, ?_⟩
    rw [hmissing hnone]; rfl
  · intro e rest hne
    have h : Storage.GetURL ⟨db, some e :: rest⟩ a =
        (("", some (.wrap "storage.postgres.GetURL" (.driver e))), ⟨db, rest⟩) := by
      simp [Storage.GetURL, dbQueryRowScan, Conn.nextFault, hne]
    refine ⟨h, ?_⟩
    rw [h]; rfl
  · cases hfind : db.rows.find? (fun x => decide (x.alias_ = a)) with
    | none => rw [hmissing hfind]; exact hmissing hfind
    | some r => rw [hfound r hfind]; exact hfound r hfind

/-- Scenario 4 and its converse: `go` resolves to its url, `abc123` was never saved, and
a url saved under `xyz789` is the one read back. -/
theorem GetURL_reads_without_writing_witness :
    Storage.GetURL storeWithGo "go" = (("https://go.dev", none), storeWithGo) ∧
    Storage.GetURL storeWithGo "abc123" =
      (("", some (.wrap "storage.postgres.GetURL" .ErrURLNotFound)), storeWithGo) ∧
    (Storage.GetURL (Storage.SaveURL storeWithGo "https://example.com" "xyz789").2
      "xyz789").1 = ("https://example.com", none) :=
  ⟨(GetURL_reads_without_writing storeWithGo.db "go").1 ⟨1, "https://go.dev", "go"⟩
      (by decide) rfl (by decide),
   ((GetURL_reads_without_writing storeWithGo.db "abc123").2.2.2.1 (by decide)).1,
   (GetURL_reads_without_writing storeWithGo.db "xyz789").2.2.1 "https://example.com"
      (by decide)⟩

/-- C9: starting from a store whose aliases are distinct, the aliases are distinct after
any sequence of `SaveURL`, `GetURL` and `DeleteURL` calls, whatever driver failures
occur, and after any run of the save handler over this storage, its retry loop
included; a `SaveURL` that fails or conflicts leaves the table as it was. -/
theorem aliases_stay_distinct (s : Conn) (h : AliasesDistinct s.db) :
    (∀ ops, AliasesDistinct (runOps s ops).db) ∧
    (∀ {γ : Type} (env : Env Conn γ), env.SaveURL = Storage.SaveURL →
      ∀ fuel body rand out, New env fuel body (World.init s rand) = some out →
        AliasesDistinct out.2.store.db) ∧
    (∀ url a, (Storage.SaveURL s url a).1.2 ≠ none →
      (Storage.SaveURL s url a).2.db = s.db) := by
  refine ⟨fun ops => runOps_distinct ops s h, ?_, fun url a => SaveURL_err_db s url a⟩
  intro γ env henv fuel body rand out hout
  refine New_preserves env (fun w => AliasesDistinct w.store.db) ?_ ?_ fuel body
    (World.init s rand) h out hout
  · intro w u a hw
    show AliasesDistinct (env.SaveURL w.store u a).2.db
    rw [henv]
    exact SaveURL_distinct _ _ _ hw
  · intro w n hw
    exact hw

/-- The store of Scenario 1 through a conflicting save, a save, a read, a delete and a
failing save, and through the handler retrying once. -/
theorem aliases_stay_distinct_witness :
    AliasesDistinct (runOps breakingStore
      [.save "https://example.com" "abc123", .save "https://example.com" "go",
       .get "go", .delete "abc123", .save "https://example.com" "go"]).db ∧
    (∀ out, New (pgEnv ⟨"https://example.com", ""⟩) 2 "request" scenario1 = some out →
      AliasesDistinct out.2.store.db) ∧
    (Storage.SaveURL storeWithAbc123 "https://example.com" "abc123").2.db =
      storeWithAbc123.db :=
  ⟨(aliases_stay_distinct breakingStore (by decide)).1 _,
   fun out hout => (aliases_stay_distinct storeWithAbc123 (by decide)).2.1
      (pgEnv ⟨"https://example.com", ""⟩) rfl 2 "request" ["abc123", "xyz789"] out hout,
   (aliases_stay_distinct storeWithAbc123 (by decide)).2.2
      "https://example.com" "abc123" (by decide)⟩

/-! ## The generated alias -/

theorem randomRunes_length (n : Nat) (r : RandSource) : (randomRunes n r).1.length = n := by
  induction n generalizing r with
  | zero => rfl
  | succ n ih => simp [randomRunes, ih]

theorem randomRunes_mem (n : Nat) (r : RandSource) : ∀ c ∈ (randomRunes n r).1, c ∈ chars := by
  induction n generalizing r with
  | zero => intro c hc; cases hc
  | succ n ih =>
      intro c hc
      simp only [randomRunes, List.mem_cons] at hc
      rcases hc with rfl | hc
      · have hlt : (r.Intn chars.length).1 < chars.length :=
          Nat.mod_lt _ (by decide)
        rw [List.getD_eq_getElem _ _ hlt]
        exact List.getElem_mem _
      · exact ih _ c hc

/-- Every string `NewRandomString` returns for `aliasLength` is well formed. -/
theorem NewRandomString_wellFormed (r : RandSource) :
    WellFormedAlias (NewRandomString r aliasLength).1 :=
  ⟨randomRunes_length aliasLength r, randomRunes_mem aliasLength r⟩

/-- C4: for an accepted request with an empty alias, handled with the generator of
`internal/lib/random`, every candidate passed to `SaveURL` has the configured length
(`aliasLength`, which is 6) and consists of characters of the alphabet a-z, A-Z, 0-9,
each call carries the request URL, and whenever the handler responds OK the returned
alias is such a string, namely the last candidate generated. -/
theorem generated_alias_well_formed {σ : Type} (env : Env σ RandSource)
    (body : String) (req : Request) (store : σ) (rand : RandSource) (fuel : Nat)
    (resp : Response) (w' : World σ RandSource)
    (hgen : env.NewRandomString = NewRandomString)
    (hreq : Accepted env body req) (hempty : req.Alias = "")
    (hrun : New env fuel body (World.init store rand) = some (resp, w')) :
    aliasLength = 6 ∧
    (∀ c ∈ w'.saveCalls, c.1 = req.URL ∧ c.2.length = 6 ∧ ∀ x ∈ c.2.data, x ∈ chars) ∧
    (∀ a ∈ w'.generated, a.length = 6 ∧ ∀ x ∈ a.data, x ∈ chars) ∧
    (resp.Status = "OK" →
      w'.generated.getLast? = some resp.Alias ∧
      resp.Alias.length = 6 ∧ ∀ x ∈ resp.Alias.data, x ∈ chars) := by
  rw [New_generated env fuel body req _ hreq hempty] at hrun
  have hinv := retryLoop_preserves env req.URL
    (fun w => (∀ c ∈ w.saveCalls, c.1 = req.URL ∧ WellFormedAlias c.2) ∧
      (∀ a ∈ w.generated, WellFormedAlias a))
    (by
      intro w hw
      have hwf : WellFormedAlias (candidate env req.URL w 0) := by
        show WellFormedAlias (env.NewRandomString w.rand aliasLength).1
        rw [hgen]; exact NewRandomString_wellFormed _
      rw [attempt_saveCalls, attempt_generated]
      constructor
      · intro c hc
        rcases List.mem_append.1 hc with hc | hc
        · exact hw.1 c hc
        · rw [List.mem_singleton] at hc; subst hc; exact ⟨rfl, hwf⟩
      · intro a ha
        rcases List.mem_append.1 ha with ha | ha
        · exact hw.2 a ha
        · rw [List.mem_singleton] at ha; subst ha; exact hwf)
    fuel (World.init store rand)
    (And.intro (fun c hc => by cases hc) (fun a ha => by cases ha)) (resp, w') hrun
  refine ⟨rfl, fun c hc => hinv.1 c hc, fun a ha => hinv.2 a ha, ?_⟩
  intro hok
  rcases retryLoop_response env req.URL fuel _ (resp, w') hrun with h | ⟨_, hlast, _⟩
  · have h' : resp = respError "failed to add url" := h
    rw [h'] at hok
    exact absurd hok (by decide)
  · exact ⟨hlast, hinv.2 _ (List.mem_of_getLast?_eq_some hlast)⟩

/-- Scenario 1 with the generator of `internal/lib/random`: the draws spell `abc123`,
which is taken, and then `xyz789`. -/
theorem generated_alias_well_formed_witness :
    New (pgRandomEnv ⟨"https://example.com", ""⟩) 2 "request"
        (World.init storeWithAbc123 (replay scenario1Draws)) =
      some (responseOK "xyz789",
        ⟨⟨⟨[⟨1, "https://example.com", "abc123"⟩, ⟨2, "https://example.com", "xyz789"⟩], 2⟩, []⟩,
         ⟨(replay scenario1Draws).draws, 12⟩,
         [("https://example.com", "abc123"), ("https://example.com", "xyz789")],
         ["abc123", "xyz789"]⟩) ∧
    "xyz789".length = 6 ∧ ∀ x ∈ "xyz789".data, x ∈ chars :=
  ⟨rfl, (generated_alias_well_formed (pgRandomEnv ⟨"https://example.com", ""⟩) "request"
      ⟨"https://example.com", ""⟩ storeWithAbc123 (replay scenario1Draws) 2
      (responseOK "xyz789")
      ⟨⟨⟨[⟨1, "https://example.com", "abc123"⟩, ⟨2, "https://example.com", "xyz789"⟩], 2⟩, []⟩,
       ⟨(replay scenario1Draws).draws, 12⟩,
       [("https://example.com", "abc123"), ("https://example.com", "xyz789")],
       ["abc123", "xyz789"]⟩
      rfl ⟨rfl, by decide⟩ rfl rfl).2.2.2 rfl |>.2⟩

end UrlShortener
